import Mathlib

/-!
Verification development for the `nmea0183_parser` repository (RMC sentence
decoding). The stream-level combinators mirror the nom combinators used by
`src/nmea_content/sentences/rmc.rs`; `magnetic_variation` is a direct
embedding of the source function. The record assembler and the primitive
decoders whose implementations live outside the provided sources are
modelled from the specification, as marked in their doc comments.
-/

set_option maxRecDepth 4000

/-- nom's `IResult` type: a parse either fails with an error of type `E` or
succeeds with the remaining input and the produced value. -/
abbrev IResult (I O E : Type) := Except E (I × O)

deriving instance DecidableEq for Except

/-- nom's `char(c)` parser: succeeds exactly when the input starts with `c`,
consuming it. -/
def charP (c : Char) (i : List Char) : IResult (List Char) Char Unit :=
  match i with
  | x :: r => if x = c then .ok (r, x) else .error ()
  | [] => .error ()

/-- nom's `one_of(s)` parser: succeeds exactly when the input starts with one
of the characters of `s`, consuming it and returning it. -/
def oneOf (s : List Char) (i : List Char) : IResult (List Char) Char Unit :=
  match i with
  | x :: r => if x ∈ s then .ok (r, x) else .error ()
  | [] => .error ()

/-- Split the input into its longest decimal-digit head and the rest. -/
def digSpan (i : List Char) : List Char × List Char :=
  (i.takeWhile Char.isDigit, i.dropWhile Char.isDigit)

/-- Numeric value of a list of decimal digit characters. -/
def digitsVal (l : List Char) : Nat :=
  l.foldl (fun a c => 10 * a + (c.toNat - 48)) 0

/-- Optional exponent tail after an `e`/`E` has been seen: an optional sign
followed by at least one digit; if no digit follows, nothing is consumed
(the parse backtracks to `orig`). -/
def expAfterE (orig t : List Char) : Int × List Char :=
  match t with
  | '-' :: u =>
    match digSpan u with
    | ([], _) => (0, orig)
    | (ds, r) => (-(digitsVal ds : Int), r)
  | '+' :: u =>
    match digSpan u with
    | ([], _) => (0, orig)
    | (ds, r) => ((digitsVal ds : Int), r)
  | _ =>
    match digSpan t with
    | ([], _) => (0, orig)
    | (ds, r) => ((digitsVal ds : Int), r)

/-- Optional exponent part of a float: `e`/`E`, optional sign, digits. -/
def expPart (i : List Char) : Int × List Char :=
  match i with
  | 'e' :: t => expAfterE i t
  | 'E' :: t => expAfterE i t
  | _ => (0, i)

/-- Assemble the rational value of a parsed float from its sign, integer
digits value, fraction digit list and exponent: the value
`±(ip.frac) * 10^ex`, built from integer arithmetic so that it evaluates
by kernel reduction. -/
def fracValue (neg : Bool) (ip : Nat) (fr : List Char) (ex : Int) : ℚ :=
  let mant : Int := (ip * 10 ^ fr.length + digitsVal fr : Nat)
  let mant : Int := if neg then -mant else mant
  match ex with
  | .ofNat n => mkRat (mant * ((10 ^ n : Nat) : Int)) (10 ^ fr.length)
  | .negSucc n => mkRat mant (10 ^ fr.length * 10 ^ (n + 1))

/-- Modelled from the spec: the repository's `NmeaParse` implementation for
`f32` (absent from the provided sources) parses decimal text — optional
sign, digits with an optional fraction, optional exponent — into a floating
value, here represented exactly as a rational. It consumes the longest
float-shaped head of the stream and leaves the rest. -/
def parseF32stream (i : List Char) : IResult (List Char) ℚ Unit :=
  let (neg, i1) :=
    match i with
    | '-' :: t => (true, t)
    | '+' :: t => (false, t)
    | _ => (false, i)
  let (ip, i2) := digSpan i1
  match ip with
  | [] =>
    match i2 with
    | '.' :: t =>
      match digSpan t with
      | ([], _) => .error ()
      | (fr, i3) =>
        let (ex, i4) := expPart i3
        .ok (i4, fracValue neg 0 fr ex)
    | _ => .error ()
  | _ =>
    match i2 with
    | '.' :: t =>
      let (fr, i3) := digSpan t
      let (ex, i4) := expPart i3
      .ok (i4, fracValue neg (digitsVal ip) fr ex)
    | _ =>
      let (ex, i4) := expPart i2
      .ok (i4, fracValue neg (digitsVal ip) [] ex)

/-- Embedding of the source's `magnetic_variation` parser:
`alt((value(None, char(',')), separated_pair(f32::parse, char(','),
one_of("EW")).map(...)))` — first try to recognize an empty magnitude field
(a leading comma yields `None`), otherwise parse a float magnitude, a comma
and a direction letter, negating the magnitude when the letter is `W`. -/
def magnetic_variation (i : List Char) : IResult (List Char) (Option ℚ) Unit :=
  match charP ',' i with
  | .ok (r, _) => .ok (r, none)
  | .error _ =>
    match parseF32stream i with
    | .error e => .error e
    | .ok (i1, v) =>
      match charP ',' i1 with
      | .error e => .error e
      | .ok (i2, _) =>
        match oneOf ['E', 'W'] i2 with
        | .error e => .error e
        | .ok (i3, dir) => .ok (i3, if dir = 'W' then some (-v) else some v)

/-- Decidable companion of the direction-letter condition: after the
magnitude parses, the remaining stream starts with a comma followed by a
valid direction letter `E` or `W`. -/
def dirOkB (i : List Char) : Bool :=
  match parseF32stream i with
  | .ok (',' :: d :: _, _) => d = 'E' || d = 'W'
  | _ => false

/-- Modelled from the spec: the fix-validity status code (absent from the
provided sources): `A` is active/valid, `V` void/invalid, with a documented
Unknown default for an empty field. -/
inductive Status
  | A
  | V
  | Unknown
deriving DecidableEq

/-- Modelled from the spec: the FAA mode indicator enumeration (absent from
the provided sources), one ASCII character per mode. -/
inductive FaaMode
  | A
  | D
  | E
  | M
  | S
  | N
deriving DecidableEq

/-- Modelled from the spec: the navigation status enumeration (absent from
the provided sources), one ASCII character per code. -/
inductive NavStatus
  | S
  | C
  | U
  | V
deriving DecidableEq

/-- Modelled from the spec (§7): the error kinds of the decode pipeline. -/
inductive ErrCause
  | truncated
  | malformed
  | invalidDirection
  | badEnum
deriving DecidableEq

/-- Human-readable text for each error kind. -/
def causeText : ErrCause → String
  | ErrCause.truncated => "truncated sentence"
  | ErrCause.malformed => "malformed scalar"
  | ErrCause.invalidDirection => "invalid direction letter"
  | ErrCause.badEnum => "unrecognized enum code"

/-- Modelled from the spec: a field-decode error tags the zero-based wire
position of the violating field with a cause. -/
structure FieldError where
  pos : Nat
  cause : ErrCause
deriving DecidableEq

/-- A time-of-day value. -/
structure Time where
  hour : Nat
  minute : Nat
  second : ℚ
deriving DecidableEq

/-- A calendar date. -/
structure Date where
  year : Nat
  month : Nat
  day : Nat
deriving DecidableEq

/-- A geographic coordinate in decimal degrees. -/
structure Location where
  lat : ℚ
  lon : ℚ
deriving DecidableEq

/-- Two-digit decimal value of two digit characters. -/
def dig2 (a b : Char) : Nat := 10 * (a.toNat - 48) + (b.toNat - 48)

/-- Modelled from the spec: time-of-day decoder for `hhmmss[.ss]` (absent
from the provided sources). -/
def parseTimeF (f : List Char) : Except ErrCause Time :=
  match f with
  | h1 :: h2 :: m1 :: m2 :: s1 :: s2 :: rest =>
    if h1.isDigit && h2.isDigit && m1.isDigit && m2.isDigit && s1.isDigit && s2.isDigit then
      match rest with
      | [] => .ok ⟨dig2 h1 h2, dig2 m1 m2, mkRat (dig2 s1 s2 : Int) 1⟩
      | '.' :: fr =>
        if !fr.isEmpty && fr.all Char.isDigit then
          .ok ⟨dig2 h1 h2, dig2 m1 m2,
            mkRat ((dig2 s1 s2) * 10 ^ fr.length + digitsVal fr : Nat) (10 ^ fr.length)⟩
        else .error ErrCause.malformed
      | _ => .error ErrCause.malformed
    else .error ErrCause.malformed
  | _ => .error ErrCause.malformed

/-- Modelled from the spec: calendar-date decoder for `ddmmyy` (absent from
the provided sources), with the documented fixed century rule `2000 + yy`. -/
def parseDateF (f : List Char) : Except ErrCause Date :=
  match f with
  | [d1, d2, m1, m2, y1, y2] =>
    if d1.isDigit && d2.isDigit && m1.isDigit && m2.isDigit && y1.isDigit && y2.isDigit then
      .ok ⟨2000 + dig2 y1 y2, dig2 m1 m2, dig2 d1 d2⟩
    else .error ErrCause.malformed
  | _ => .error ErrCause.malformed

/-- Modelled from the spec: floating-point scalar decoder for a whole
field: the field text must parse as a float with nothing left over. -/
def parseFloatF (f : List Char) : Except ErrCause ℚ :=
  match parseF32stream f with
  | .ok ([], v) => .ok v
  | _ => .error ErrCause.malformed

/-- Modelled from the spec: an empty text field decodes to absent for an
optional scalar slot; otherwise the primitive decoder runs on the field. -/
def optSlot {α : Type} (p : List Char → Except ErrCause α) (f : List Char) :
    Except ErrCause (Option α) :=
  match f with
  | [] => .ok none
  | _ => (p f).map some

/-- Modelled from the spec: status decoder; `A`/`V` are the valid
characters and the empty field yields the documented Unknown default. -/
def statusSlot (f : List Char) : Except ErrCause Status :=
  match f with
  | [] => .ok Status.Unknown
  | ['A'] => .ok Status.A
  | ['V'] => .ok Status.V
  | _ => .error ErrCause.badEnum

/-- Modelled from the spec: FAA-mode decoder, a closed one-character
enumeration, empty meaning absent. -/
def faaSlot (f : List Char) : Except ErrCause (Option FaaMode) :=
  match f with
  | [] => .ok none
  | ['A'] => .ok (some FaaMode.A)
  | ['D'] => .ok (some FaaMode.D)
  | ['E'] => .ok (some FaaMode.E)
  | ['M'] => .ok (some FaaMode.M)
  | ['S'] => .ok (some FaaMode.S)
  | ['N'] => .ok (some FaaMode.N)
  | _ => .error ErrCause.badEnum

/-- Modelled from the spec: navigation-status decoder, a closed
one-character enumeration, empty meaning absent. -/
def navSlot (f : List Char) : Except ErrCause (Option NavStatus) :=
  match f with
  | [] => .ok none
  | ['S'] => .ok (some NavStatus.S)
  | ['C'] => .ok (some NavStatus.C)
  | ['U'] => .ok (some NavStatus.U)
  | ['V'] => .ok (some NavStatus.V)
  | _ => .error ErrCause.badEnum

/-- `deg + minutes/60` in decimal degrees, built from integer arithmetic. -/
def degMin (deg : Nat) (minutes : ℚ) : ℚ :=
  mkRat ((deg : Int) * ((minutes.den : Int) * 60) + minutes.num) (minutes.den * 60)

/-- Modelled from the spec (§4.2): latitude magnitude `ddmm.mmmm` — two
degree digits, then minutes parsed as a float — in decimal degrees. -/
def latMag (f : List Char) : Except ErrCause ℚ :=
  match f with
  | d1 :: d2 :: rest =>
    if d1.isDigit && d2.isDigit then
      match parseF32stream rest with
      | .ok ([], mins) => .ok (degMin (dig2 d1 d2) mins)
      | _ => .error ErrCause.malformed
    else .error ErrCause.malformed
  | _ => .error ErrCause.malformed

/-- Modelled from the spec (§4.2): longitude magnitude `dddmm.mmmm` — three
degree digits, then minutes parsed as a float — in decimal degrees. -/
def lonMag (f : List Char) : Except ErrCause ℚ :=
  match f with
  | d1 :: d2 :: d3 :: rest =>
    if d1.isDigit && d2.isDigit && d3.isDigit then
      match parseF32stream rest with
      | .ok ([], mins) => .ok (degMin (100 * (d1.toNat - 48) + dig2 d2 d3) mins)
      | _ => .error ErrCause.malformed
    else .error ErrCause.malformed
  | _ => .error ErrCause.malformed

/-- Modelled from the spec: latitude hemisphere letter; `S` negates. -/
def hemiLat (f : List Char) : Except ErrCause Bool :=
  match f with
  | ['N'] => .ok false
  | ['S'] => .ok true
  | _ => .error ErrCause.invalidDirection

/-- Modelled from the spec: longitude hemisphere letter; `W` negates. -/
def hemiLon (f : List Char) : Except ErrCause Bool :=
  match f with
  | ['E'] => .ok false
  | ['W'] => .ok true
  | _ => .error ErrCause.invalidDirection

/-- Apply a hemisphere sign. -/
def signQ (negate : Bool) (q : ℚ) : ℚ := if negate then Rat.neg q else q

/-- Modelled from the spec (§4.2): the geographic-coordinate composite
consumes four wire fields at positions 2–5; an empty magnitude on either
axis makes the whole coordinate absent; a present magnitude requires a
valid hemisphere letter for its axis. -/
def locationSlot (f2 f3 f4 f5 : List Char) : Except FieldError (Option Location) :=
  match f2, f4 with
  | [], _ => .ok none
  | _, [] => .ok none
  | _, _ =>
    match latMag f2 with
    | .error c => .error ⟨2, c⟩
    | .ok la =>
      match hemiLat f3 with
      | .error c => .error ⟨3, c⟩
      | .ok sla =>
        match lonMag f4 with
        | .error c => .error ⟨4, c⟩
        | .ok lo =>
          match hemiLon f5 with
          | .error c => .error ⟨5, c⟩
          | .ok slo => .ok (some ⟨signQ sla la, signQ slo lo⟩)

/-- Modelled from the spec (§4.2): the assembler's view of the signed
magnitude-plus-direction composite at wire positions 9–10: an empty
magnitude means absent regardless of the direction field; a present
magnitude must parse as a float and be followed by `E` or `W`, `W`
negating the parsed value. -/
def magvarSlot (f9 f10 : List Char) : Except FieldError (Option ℚ) :=
  match f9 with
  | [] => .ok none
  | _ =>
    match parseF32stream f9 with
    | .ok ([], v) =>
      match f10 with
      | ['E'] => .ok (some v)
      | ['W'] => .ok (some (Rat.neg v))
      | _ => .error ⟨10, ErrCause.invalidDirection⟩
    | _ => .error ⟨9, ErrCause.malformed⟩

/-- Build-time protocol gate: the type of a conditionally compiled field —
present (`Option α`) when the protocol variant is selected, absent
(`PUnit`, no information) when it is not. -/
@[reducible] def cfgType (b : Bool) (α : Type) : Type :=
  match b with
  | true => Option α
  | false => PUnit

/-- Number of wire fields contributed by one build-time flag. -/
def cfgCount (b : Bool) : Nat := if b then 1 else 0

/-- Number of wire fields the active protocol variant requires. -/
def requiredFields (v23 v411 : Bool) : Nat := 11 + cfgCount v23 + cfgCount v411

/-- The RMC record, mirroring the struct of the source: field order matches
the wire order; `faa_mode` and `nav_status` exist in the record shape only
under the 2.3+ / 4.11+ protocol variants (the build-time flags `v23`,
`v411`). -/
instance cfgTypeDecEq (b : Bool) (α : Type) [DecidableEq α] :
    DecidableEq (cfgType b α) :=
  match b with
  | true => inferInstanceAs (DecidableEq (Option α))
  | false => inferInstanceAs (DecidableEq PUnit)

structure RMC (v23 v411 : Bool) where
  fix_time : Option Time
  status : Status
  location : Option Location
  speed_over_ground : Option ℚ
  course_over_ground : Option ℚ
  fix_date : Option Date
  magnetic_variation : Option ℚ
  faa_mode : cfgType v23 FaaMode
  nav_status : cfgType v411 NavStatus
deriving DecidableEq

/-- Modelled from the spec: the trailing FAA-mode slot, attempted only when
the 2.3+ variant is active, at wire position 11. -/
def faaPart : (v23 : Bool) → List (List Char) →
    Except FieldError (cfgType v23 FaaMode × List (List Char))
  | false, rest => .ok (PUnit.unit, rest)
  | true, [] => .error ⟨11, ErrCause.truncated⟩
  | true, f :: rest =>
    match faaSlot f with
    | .error c => .error ⟨11, c⟩
    | .ok m => .ok (m, rest)

/-- Modelled from the spec: the trailing navigation-status slot, attempted
only when the 4.11+ variant is active, at wire position `p`. -/
def navPart : (v411 : Bool) → Nat → List (List Char) →
    Except FieldError (cfgType v411 NavStatus)
  | false, _, _ => .ok PUnit.unit
  | true, p, [] => .error ⟨p, ErrCause.truncated⟩
  | true, p, f :: _ =>
    match navSlot f with
    | .error c => .error ⟨p, c⟩
    | .ok m => .ok m

/-- Modelled from the spec: the two protocol-version-conditional trailing
slots, decoded only when the corresponding variant is active. -/
def tailSlots (v23 v411 : Bool) (rest : List (List Char)) :
    Except FieldError (cfgType v23 FaaMode × cfgType v411 NavStatus) :=
  match faaPart v23 rest with
  | .error e => .error e
  | .ok (fa, rest2) =>
    match navPart v411 (11 + cfgCount v23) rest2 with
    | .error e => .error e
    | .ok nv => .ok (fa, nv)

/-- Modelled from the spec (§4.3): the slot ladder of the record assembler
over the eleven mandatory wire fields and the trailing variant fields. -/
def parseCore (v23 v411 : Bool) (f0 f1 f2 f3 f4 f5 f6 f7 f8 f9 f10 : List Char)
    (rest : List (List Char)) : Except FieldError (RMC v23 v411) :=
  match optSlot parseTimeF f0 with
  | .error c => .error ⟨0, c⟩
  | .ok ft =>
    match statusSlot f1 with
    | .error c => .error ⟨1, c⟩
    | .ok st =>
      match locationSlot f2 f3 f4 f5 with
      | .error e => .error e
      | .ok loc =>
        match optSlot parseFloatF f6 with
        | .error c => .error ⟨6, c⟩
        | .ok sp =>
          match optSlot parseFloatF f7 with
          | .error c => .error ⟨7, c⟩
          | .ok co =>
            match optSlot parseDateF f8 with
            | .error c => .error ⟨8, c⟩
            | .ok dt =>
              match magvarSlot f9 f10 with
              | .error e => .error e
              | .ok mv =>
                match tailSlots v23 v411 rest with
                | .error e => .error e
                | .ok (fa, nv) => .ok ⟨ft, st, loc, sp, co, dt, mv, fa, nv⟩

/-- Modelled from the spec (§4.3, §6): the record assembler, the derive
output absent from the provided sources. The input is the ordered field
sequence already split on commas. If the active variant requires more
fields than are present, decoding fails with a truncated-sentence error;
otherwise the slots consume fields left to right at their fixed wire
positions; trailing unconsumed fields are ignored. -/
def RMC.parse (v23 v411 : Bool) (fs : List (List Char)) :
    Except FieldError (RMC v23 v411) :=
  if fs.length < requiredFields v23 v411 then .error ⟨fs.length, ErrCause.truncated⟩
  else
    match fs with
    | f0 :: f1 :: f2 :: f3 :: f4 :: f5 :: f6 :: f7 :: f8 :: f9 :: f10 :: rest =>
      parseCore v23 v411 f0 f1 f2 f3 f4 f5 f6 f7 f8 f9 f10 rest
    | _ => .error ⟨fs.length, ErrCause.truncated⟩

/-- The field sequence of the source's test sentence
`001031.00,A,4404.13993,N,12118.86023,W,0.146,,100117,,,A,V`, already
split on commas. -/
def c4fields : List (List Char) :=
  ["001031.00", "A", "4404.13993", "N", "12118.86023", "W", "0.146", "",
    "100117", "", "", "A", "V"].map String.toList

/-- The 13-field sequence with every optional field empty and only the
status field (text `st`) populated. -/
def onlyStatus (st : List Char) : List (List Char) :=
  [[], st, [], [], [], [], [], [], [], [], [], [], []]

/-- A float parse never succeeds on input whose first character is a comma:
a comma is not a sign, digit or decimal point. -/
theorem parseF32stream_comma (t : List Char) :
    parseF32stream (',' :: t) = .error () := rfl

/-- A float parse never succeeds on empty input. -/
theorem parseF32stream_nil : parseF32stream [] = .error () := rfl

/-- If the float parse of `i` succeeds, `i` does not start with a comma. -/
theorem parseF32stream_ok_head (i r : List Char) (v : ℚ)
    (h : parseF32stream i = .ok (r, v)) : i.head? ≠ some ',' := by
  intro hc
  cases i with
  | nil => exact Option.noConfusion hc
  | cons x t =>
    have hx : x = ',' := by simpa using hc
    subst hx
    rw [parseF32stream_comma] at h
    exact Except.noConfusion h

/-- If the input does not start with a comma, the first `alt` branch of
`magnetic_variation` fails. -/
theorem charP_comma_fail (i : List Char) (h : i.head? ≠ some ',') :
    charP ',' i = .error () := by
  cases i with
  | nil => rfl
  | cons x r =>
    have hx : ¬ x = ',' := by
      intro hx
      exact h (by simp [hx])
    simp [charP, hx]

/-- Helper: when the magnitude parses to `v` and is followed by a comma and a
direction letter in `{E, W}`, `magnetic_variation` takes its second branch
and applies the sign rule of the source. -/
theorem magvar_branch2 (i r : List Char) (v : ℚ) (d : Char)
    (hd : d = 'E' ∨ d = 'W')
    (hp : parseF32stream i = .ok (',' :: d :: r, v)) :
    magnetic_variation i = .ok (r, if d = 'W' then some (-v) else some v) := by
  have h1 : charP ',' i = .error () :=
    charP_comma_fail i (parseF32stream_ok_head i _ v hp)
  have h2 : charP ',' (',' :: d :: r) = .ok (d :: r, ',') := by simp [charP]
  have h3 : oneOf ['E', 'W'] (d :: r) = .ok (r, d) := by
    have hmem : d ∈ ['E', 'W'] := by
      rcases hd with h | h <;> simp [h]
    simp [oneOf, hmem]
  simp only [magnetic_variation, h1, hp, h2, h3]

/-- C1: for every input to the `magnetic_variation` decoder whose magnitude
text parses as a float `v` and is followed by a comma and a direction letter
`d ∈ {E, W}`, the decoder returns `Some (-v)` when `d = 'W'` and `Some v`
unchanged when `d = 'E'`. -/
theorem magvar_sign_correct (i r : List Char) (v : ℚ) (d : Char)
    (hd : d = 'E' ∨ d = 'W')
    (hp : parseF32stream i = .ok (',' :: d :: r, v)) :
    magnetic_variation i = .ok (r, if d = 'W' then some (-v) else some v) :=
  magvar_branch2 i r v d hd hp

/-- C1 witness: magnitude `3.00` with direction `W` decodes to `-3.0` and
with `E` to `+3.0`. -/
theorem magvar_sign_correct_witness :
    magnetic_variation ("3.00,W".toList) = .ok ([], some (-(3 : ℚ)))
    ∧ magnetic_variation ("3.00,E".toList) = .ok ([], some (3 : ℚ)) := by
  constructor
  · have h := magvar_sign_correct ("3.00,W".toList) [] 3 'W' (Or.inr rfl) (by decide)
    simpa using h
  · have h := magvar_sign_correct ("3.00,E".toList) [] 3 'E' (Or.inl rfl) (by decide)
    simpa using h

/-- C2: when the magnitude field is empty — the input starts with the field
separator comma — the decoded magnetic variation is absent (`none`),
whatever text `d` occupies the following direction-letter field; no error
is produced. -/
theorem magvar_empty_absent (d rest : List Char) :
    magnetic_variation (',' :: (d ++ ',' :: rest)) = .ok (d ++ ',' :: rest, none) := rfl

/-- C9: on input starting with a comma the decoder returns `none` and
consumes exactly that one comma: the remainder handed back is the input
with only the leading comma removed, leaving the direction field (and
everything after it) for the next slot. -/
theorem magvar_empty_consumes_one_comma (r : List Char) :
    magnetic_variation (',' :: r) = .ok (r, none) := rfl

/-- C3: when the magnitude field is present and non-empty (the input does
not start with the separator comma) and the text after the parsed magnitude
is not a comma followed by `E` or `W` — a bad direction letter, or no
direction letter at all — the decoder returns an error, never a silent
default. -/
theorem magvar_invalid_direction_error (i : List Char)
    (h1 : i.head? ≠ some ',') (h2 : dirOkB i = false) :
    magnetic_variation i = .error () := by
  have hc : charP ',' i = .error () := charP_comma_fail i h1
  unfold dirOkB at h2
  simp only [magnetic_variation, hc]
  cases hp : parseF32stream i with
  | error e => cases e; rfl
  | ok p =>
    obtain ⟨i1, v⟩ := p
    rw [hp] at h2
    cases i1 with
    | nil => rfl
    | cons x t =>
      by_cases hx : x = ','
      · subst hx
        cases t with
        | nil => rfl
        | cons d r =>
          simp at h2
          simp [charP, oneOf, h2.1, h2.2]
      · simp [charP, hx]

/-- C3 witness: magnitude `3.00` with direction letter `X`, and magnitude
`3.00` with no direction field at all, both fail. -/
theorem magvar_invalid_direction_error_witness :
    magnetic_variation ("3.00,X".toList) = .error ()
    ∧ magnetic_variation ("3.00".toList) = .error () :=
  ⟨magvar_invalid_direction_error _ (by decide) (by decide),
   magvar_invalid_direction_error _ (by decide) (by decide)⟩

/-- C10: the W-negation applies to the parsed numeric value, not the raw
text: a magnitude that parses to a negative `v` followed by `,W` yields
`Some (-v)`, a positive value, while with `,E` the negative `v` is returned
unchanged. -/
theorem magvar_negates_parsed_value (i1 i2 r1 r2 : List Char) (v : ℚ)
    (hv : v < 0)
    (hp1 : parseF32stream i1 = .ok (',' :: 'W' :: r1, v))
    (hp2 : parseF32stream i2 = .ok (',' :: 'E' :: r2, v)) :
    magnetic_variation i1 = .ok (r1, some (-v)) ∧ 0 < -v
    ∧ magnetic_variation i2 = .ok (r2, some v) := by
  refine ⟨?_, by linarith, ?_⟩
  · have h := magvar_branch2 i1 r1 v 'W' (Or.inr rfl) hp1
    simpa using h
  · have h := magvar_branch2 i2 r2 v 'E' (Or.inl rfl) hp2
    simpa using h

/-- C10 witness: textually signed magnitude `-3.0` with `W` decodes to
`+3.0` (double negation) and with `E` stays `-3.0`. -/
theorem magvar_negates_parsed_value_witness :
    magnetic_variation ("-3.0,W".toList) = .ok ([], some (-(-3 : ℚ))) ∧ 0 < -(-3 : ℚ)
    ∧ magnetic_variation ("-3.0,E".toList) = .ok ([], some (-3 : ℚ)) :=
  magvar_negates_parsed_value _ _ [] [] (-3) (by norm_num) (by decide) (by decide)

/-- C4: decoding the literal field sequence
`001031.00,A,4404.13993,N,12118.86023,W,0.146,,100117,,,A,V` succeeds and
yields status Active, location approximately `(44.0689988, -121.3143372)`,
speed over ground approximately `0.146`, course over ground absent, fix
date 2017-01-10 under the documented `2000+yy` century rule, magnetic
variation absent, and — both protocol variants being active — FAA mode `A`
and navigation status `V`. -/
theorem rmc_literal_sentence_decodes :
    ∃ r : RMC true true, RMC.parse true true c4fields = .ok r
      ∧ r.status = Status.A
      ∧ (∃ loc : Location, r.location = some loc
          ∧ |loc.lat - 44.0689988| < 1 / 1000000
          ∧ |loc.lon - (-121.3143372)| < 1 / 1000000)
      ∧ (∃ s : ℚ, r.speed_over_ground = some s ∧ |s - 0.146| < 1 / 1000000)
      ∧ r.course_over_ground = none
      ∧ r.fix_date = some ⟨2017, 1, 10⟩
      ∧ r.magnetic_variation = none
      ∧ r.faa_mode = some FaaMode.A
      ∧ r.nav_status = some NavStatus.V := by
  refine ⟨⟨some ⟨0, 10, 31⟩, Status.A,
      some ⟨mkRat 264413993 6000000, Rat.neg (mkRat 727886023 6000000)⟩,
      some (mkRat 146 1000), none, some ⟨2017, 1, 10⟩, none,
      some FaaMode.A, some NavStatus.V⟩, by decide, rfl,
    ⟨⟨mkRat 264413993 6000000, Rat.neg (mkRat 727886023 6000000)⟩, rfl, ?_, ?_⟩,
    ⟨mkRat 146 1000, rfl, ?_⟩, rfl, rfl, rfl, rfl, rfl⟩
  · rw [Rat.mkRat_eq_divInt, Rat.divInt_eq_div, abs_lt]
    constructor <;> norm_num
  · have h : (Rat.neg (mkRat 727886023 6000000) : ℚ)
        = -(mkRat 727886023 6000000) := rfl
    rw [h, Rat.mkRat_eq_divInt, Rat.divInt_eq_div, abs_lt]
    constructor <;> norm_num
  · rw [Rat.mkRat_eq_divInt, Rat.divInt_eq_div, abs_lt]
    constructor <;> norm_num

/-- C6: for every well-formed RMC field sequence in which every optional
field is empty and only the status field is populated (any text the status
decoder accepts), decoding succeeds and every optional field of the
resulting record is absent. -/
theorem rmc_all_optional_empty (st : List Char) (v : Status)
    (hst : statusSlot st = .ok v) :
    RMC.parse true true (onlyStatus st) =
      .ok ⟨none, v, none, none, none, none, none, none, none⟩ := by
  unfold RMC.parse onlyStatus
  rw [if_neg (by simp [requiredFields, cfgCount])]
  show parseCore true true [] st [] [] [] [] [] [] [] [] [] [[], []] = _
  unfold parseCore
  simp only [hst]
  rfl

/-- C6 witness: the all-empty sequence with status `A` decodes to the
record with status Active and every optional field absent. -/
theorem rmc_all_optional_empty_witness :
    RMC.parse true true (onlyStatus ['A']) =
      .ok ⟨none, Status.A, none, none, none, none, none, none, none⟩ :=
  rmc_all_optional_empty ['A'] Status.A (by decide)

/-- Helper: the trailing variant slots never look beyond the two fields at
wire positions 11 and 12, so extra trailing fields do not change them. -/
theorem tailSlots_trailing (fA fN : List Char) (extra : List (List Char)) :
    tailSlots true true (fA :: fN :: extra) = tailSlots true true [fA, fN] := by
  unfold tailSlots
  have hfa : ∀ r : List (List Char), faaPart true (fA :: r)
      = (match faaSlot fA with
         | .error c => .error ⟨11, c⟩
         | .ok m => .ok (m, r)) := fun r => rfl
  rw [hfa, hfa]
  cases faaSlot fA with
  | error c => rfl
  | ok m => rfl

/-- C5: a field sequence with fewer wire fields than the active protocol
variant requires fails with a truncated-sentence error (at the position of
the first missing field) and never yields a partially populated record;
and trailing unconsumed fields beyond the last configured slot are not an
error — they do not change the decode result at all. -/
theorem rmc_truncation_and_trailing :
    (∀ (v23 v411 : Bool) (fs : List (List Char)),
      fs.length < requiredFields v23 v411 →
        RMC.parse v23 v411 fs = .error ⟨fs.length, ErrCause.truncated⟩)
    ∧ (∀ f0 f1 f2 f3 f4 f5 f6 f7 f8 f9 f10 f11 f12 : List Char,
        ∀ extra : List (List Char),
        RMC.parse true true
            (f0 :: f1 :: f2 :: f3 :: f4 :: f5 :: f6 :: f7 :: f8 :: f9 ::
              f10 :: f11 :: f12 :: extra)
          = RMC.parse true true
            [f0, f1, f2, f3, f4, f5, f6, f7, f8, f9, f10, f11, f12]) := by
  constructor
  · intro v23 v411 fs h
    unfold RMC.parse
    rw [if_pos h]
  · intro f0 f1 f2 f3 f4 f5 f6 f7 f8 f9 f10 f11 f12 extra
    have h1 : ¬ ((f0 :: f1 :: f2 :: f3 :: f4 :: f5 :: f6 :: f7 :: f8 :: f9 ::
        f10 :: f11 :: f12 :: extra).length < requiredFields true true) := by
      simp [requiredFields, cfgCount]
    have h2 : ¬ (([f0, f1, f2, f3, f4, f5, f6, f7, f8, f9, f10, f11, f12] :
        List (List Char)).length < requiredFields true true) := by
      simp [requiredFields, cfgCount]
    unfold RMC.parse
    rw [if_neg h1, if_neg h2]
    show parseCore true true f0 f1 f2 f3 f4 f5 f6 f7 f8 f9 f10 (f11 :: f12 :: extra)
        = parseCore true true f0 f1 f2 f3 f4 f5 f6 f7 f8 f9 f10 [f11, f12]
    unfold parseCore
    rw [tailSlots_trailing]

/-- C5 witness: the empty field sequence is below the minimum of the active
variant and decodes to the truncated-sentence error at position 0. -/
theorem rmc_truncation_witness :
    RMC.parse true true [] = .error ⟨0, ErrCause.truncated⟩ :=
  rmc_truncation_and_trailing.1 true true [] (by decide)

/-- Every error cause carries non-empty human-readable text. -/
theorem causeText_pos (c : ErrCause) : 0 < (causeText c).length := by
  cases c <;> decide

/-- A list of length at least 11 splits into eleven heads and a tail. -/
theorem exists_cons11 {α : Type} (fs : List α) (h : 11 ≤ fs.length) :
    ∃ f0 f1 f2 f3 f4 f5 f6 f7 f8 f9 f10 rest,
      fs = f0 :: f1 :: f2 :: f3 :: f4 :: f5 :: f6 :: f7 :: f8 :: f9 :: f10 :: rest := by
  rcases fs with _ | ⟨f0, fs⟩
  · simp at h
  rcases fs with _ | ⟨f1, fs⟩
  · simp at h
  rcases fs with _ | ⟨f2, fs⟩
  · simp at h
  rcases fs with _ | ⟨f3, fs⟩
  · simp at h
  rcases fs with _ | ⟨f4, fs⟩
  · simp at h
  rcases fs with _ | ⟨f5, fs⟩
  · simp at h
  rcases fs with _ | ⟨f6, fs⟩
  · simp at h
  rcases fs with _ | ⟨f7, fs⟩
  · simp at h
  rcases fs with _ | ⟨f8, fs⟩
  · simp at h
  rcases fs with _ | ⟨f9, fs⟩
  · simp at h
  rcases fs with _ | ⟨f10, fs⟩
  · simp at h
  exact ⟨f0, f1, f2, f3, f4, f5, f6, f7, f8, f9, f10, fs, rfl⟩

/-- A coordinate-composite failure is tagged at one of the wire positions
2–5. -/
theorem locationSlot_error_pos (f2 f3 f4 f5 : List Char) (e : FieldError)
    (h : locationSlot f2 f3 f4 f5 = .error e) : e.pos ≤ 5 := by
  unfold locationSlot at h
  split at h
  · simp at h
  · simp at h
  · split at h
    · cases h; simp
    · split at h
      · cases h; simp
      · split at h
        · cases h; simp
        · split at h
          · cases h; simp
          · simp at h

/-- A magnetic-variation-composite failure is tagged at wire position 9 or
10. -/
theorem magvarSlot_error_pos (f9 f10 : List Char) (e : FieldError)
    (h : magvarSlot f9 f10 = .error e) : e.pos ≤ 10 := by
  unfold magvarSlot at h
  split at h
  · simp at h
  · split at h
    · split at h
      · simp at h
      · simp at h
      · cases h; simp
    · cases h; simp

/-- A failure of the FAA-mode slot only happens under the 2.3+ variant and
is tagged at wire position 11. -/
theorem faaPart_error (v23 : Bool) (rest : List (List Char)) (e : FieldError)
    (h : faaPart v23 rest = .error e) : v23 = true ∧ e.pos = 11 := by
  cases v23 with
  | false => simp [faaPart] at h
  | true =>
    refine ⟨rfl, ?_⟩
    cases rest with
    | nil =>
      unfold faaPart at h
      cases h
      rfl
    | cons f r =>
      have hf : faaPart true (f :: r)
          = (match faaSlot f with
             | .error c => .error ⟨11, c⟩
             | .ok m => .ok (m, r)) := rfl
      rw [hf] at h
      rcases hs : faaSlot f with c | m
      · rw [hs] at h
        have he : (⟨11, c⟩ : FieldError) = e := Except.error.inj h
        rw [← he]
      · rw [hs] at h
        simp at h

/-- A failure of the navigation-status slot only happens under the 4.11+
variant and is tagged at the position it is invoked at. -/
theorem navPart_error (v411 : Bool) (p : Nat) (rest : List (List Char)) (e : FieldError)
    (h : navPart v411 p rest = .error e) : v411 = true ∧ e.pos = p := by
  cases v411 with
  | false => simp [navPart] at h
  | true =>
    refine ⟨rfl, ?_⟩
    cases rest with
    | nil =>
      unfold navPart at h
      cases h
      rfl
    | cons f r =>
      have hf : navPart true p (f :: r)
          = (match navSlot f with
             | .error c => .error ⟨p, c⟩
             | .ok m => .ok m) := rfl
      rw [hf] at h
      rcases hs : navSlot f with c | m
      · rw [hs] at h
        have he : (⟨p, c⟩ : FieldError) = e := Except.error.inj h
        rw [← he]
      · rw [hs] at h
        simp at h

/-- A failure of the trailing variant slots is tagged below the required
field count of the active variant. -/
theorem tailSlots_error (v23 v411 : Bool) (rest : List (List Char)) (e : FieldError)
    (h : tailSlots v23 v411 rest = .error e) :
    e.pos < requiredFields v23 v411 := by
  unfold tailSlots at h
  rcases hfa : faaPart v23 rest with e1 | pr
  · rw [hfa] at h
    have he : e1 = e := Except.error.inj h
    obtain ⟨hv, hp⟩ := faaPart_error v23 rest e1 hfa
    subst hv
    rw [← he, hp]
    cases v411 <;> decide
  · obtain ⟨fa, rest2⟩ := pr
    rw [hfa] at h
    have h2 : ((match navPart v411 (11 + cfgCount v23) rest2 with
        | .error e => .error e
        | .ok nv => .ok (fa, nv)) :
          Except FieldError (cfgType v23 FaaMode × cfgType v411 NavStatus))
        = .error e := h
    rcases hnv : navPart v411 (11 + cfgCount v23) rest2 with e2 | nv
    · rw [hnv] at h2
      have he : e2 = e := Except.error.inj h2
      obtain ⟨hv, hp⟩ := navPart_error v411 _ rest2 e2 hnv
      subst hv
      rw [← he, hp]
      cases v23 <;> decide
    · rw [hnv] at h2
      simp at h2

/-- C7: every RMC decoding failure is returned to the caller as a
field-decode error whose zero-based position lies inside the active
variant's field range and whose cause has non-empty human-readable text;
decoding never produces anything but a record or such an error. -/
theorem rmc_error_contract (v23 v411 : Bool) (fs : List (List Char)) (e : FieldError)
    (h : RMC.parse v23 v411 fs = .error e) :
    e.pos < requiredFields v23 v411 ∧ 0 < (causeText e.cause).length := by
  refine ⟨?_, causeText_pos e.cause⟩
  have hreq : 11 ≤ requiredFields v23 v411 := by
    cases v23 <;> cases v411 <;> decide
  unfold RMC.parse at h
  by_cases hlen : fs.length < requiredFields v23 v411
  · rw [if_pos hlen] at h
    have he : (⟨fs.length, ErrCause.truncated⟩ : FieldError) = e := Except.error.inj h
    rw [← he]
    exact hlen
  · rw [if_neg hlen] at h
    obtain ⟨f0, f1, f2, f3, f4, f5, f6, f7, f8, f9, f10, rest, rfl⟩ :=
      exists_cons11 fs (le_trans hreq (Nat.le_of_not_lt hlen))
    have h' : parseCore v23 v411 f0 f1 f2 f3 f4 f5 f6 f7 f8 f9 f10 rest = .error e := h
    unfold parseCore at h'
    rcases h0 : optSlot parseTimeF f0 with c | ft
    · rw [h0] at h'
      have he : (⟨0, c⟩ : FieldError) = e := Except.error.inj h'
      rw [← he]
      exact lt_of_lt_of_le (by norm_num) hreq
    rw [h0] at h'
    rcases h1 : statusSlot f1 with c | st
    · rw [h1] at h'
      have he : (⟨1, c⟩ : FieldError) = e := Except.error.inj h'
      rw [← he]
      exact lt_of_lt_of_le (by norm_num) hreq
    rw [h1] at h'
    rcases h2 : locationSlot f2 f3 f4 f5 with e1 | loc
    · rw [h2] at h'
      have he : e1 = e := Except.error.inj h'
      rw [← he]
      exact lt_of_le_of_lt (locationSlot_error_pos f2 f3 f4 f5 e1 h2)
        (lt_of_lt_of_le (by norm_num) hreq)
    rw [h2] at h'
    rcases h3 : optSlot parseFloatF f6 with c | sp
    · rw [h3] at h'
      have he : (⟨6, c⟩ : FieldError) = e := Except.error.inj h'
      rw [← he]
      exact lt_of_lt_of_le (by norm_num) hreq
    rw [h3] at h'
    rcases h4 : optSlot parseFloatF f7 with c | co
    · rw [h4] at h'
      have he : (⟨7, c⟩ : FieldError) = e := Except.error.inj h'
      rw [← he]
      exact lt_of_lt_of_le (by norm_num) hreq
    rw [h4] at h'
    rcases h5 : optSlot parseDateF f8 with c | dt
    · rw [h5] at h'
      have he : (⟨8, c⟩ : FieldError) = e := Except.error.inj h'
      rw [← he]
      exact lt_of_lt_of_le (by norm_num) hreq
    rw [h5] at h'
    rcases h6 : magvarSlot f9 f10 with e1 | mv
    · rw [h6] at h'
      have he : e1 = e := Except.error.inj h'
      rw [← he]
      exact lt_of_le_of_lt (magvarSlot_error_pos f9 f10 e1 h6)
        (lt_of_lt_of_le (by norm_num) hreq)
    rw [h6] at h'
    rcases h7 : tailSlots v23 v411 rest with e1 | pr
    · rw [h7] at h'
      have he : e1 = e := Except.error.inj h'
      rw [← he]
      exact tailSlots_error v23 v411 rest e1 h7
    · obtain ⟨fa, nv⟩ := pr
      rw [h7] at h'
      simp at h'

/-- C7 witness: the empty sequence fails with an error whose position is in
range and whose cause text is non-empty. -/
theorem rmc_error_contract_witness :
    (⟨0, ErrCause.truncated⟩ : FieldError).pos < requiredFields true true
    ∧ 0 < (causeText (⟨0, ErrCause.truncated⟩ : FieldError).cause).length :=
  rmc_error_contract true true [] ⟨0, ErrCause.truncated⟩ rfl

/-- C8: the protocol-version-conditional slots exist in the record shape
only when the corresponding variant is selected at build time: under the
newer variants their types are genuine option types, while under an older
variant the field's type collapses to `PUnit` — it carries no information,
so no mode or status can be read from it — the variant's wire-field count
shrinks accordingly, and the assembler never inspects the fields beyond
position 10, so it does not attempt to decode the conditional slots. -/
theorem rmc_conditional_shape :
    (∀ b : Bool, ∀ r : RMC false b, r.faa_mode = PUnit.unit)
    ∧ (∀ a : Bool, ∀ r : RMC a false, r.nav_status = PUnit.unit)
    ∧ cfgType true FaaMode = Option FaaMode
    ∧ cfgType true NavStatus = Option NavStatus
    ∧ requiredFields false false = 11 ∧ requiredFields true false = 12
    ∧ requiredFields false true = 12 ∧ requiredFields true true = 13
    ∧ (∀ f0 f1 f2 f3 f4 f5 f6 f7 f8 f9 f10 : List Char,
        ∀ rest : List (List Char),
        RMC.parse false false
            (f0 :: f1 :: f2 :: f3 :: f4 :: f5 :: f6 :: f7 :: f8 :: f9 :: f10 :: rest)
          = RMC.parse false false
            [f0, f1, f2, f3, f4, f5, f6, f7, f8, f9, f10]) := by
  refine ⟨fun b r => rfl, fun a r => rfl, rfl, rfl, rfl, rfl, rfl, rfl, ?_⟩
  intro f0 f1 f2 f3 f4 f5 f6 f7 f8 f9 f10 rest
  have h1 : ¬ ((f0 :: f1 :: f2 :: f3 :: f4 :: f5 :: f6 :: f7 :: f8 :: f9 ::
      f10 :: rest).length < requiredFields false false) := by
    simp [requiredFields, cfgCount]
  have h2 : ¬ (([f0, f1, f2, f3, f4, f5, f6, f7, f8, f9, f10] :
      List (List Char)).length < requiredFields false false) := by
    simp [requiredFields, cfgCount]
  unfold RMC.parse
  rw [if_neg h1, if_neg h2]
  show parseCore false false f0 f1 f2 f3 f4 f5 f6 f7 f8 f9 f10 rest
      = parseCore false false f0 f1 f2 f3 f4 f5 f6 f7 f8 f9 f10 []
  unfold parseCore
  rw [show tailSlots false false rest = tailSlots false false [] from rfl]
